import Mathlib

/-!
# Verification of `src/pass/lower_custom_datatypes.cc`

A shallow embedding of the TVM pass that lowers custom (registered)
datatypes to native types, together with proofs of the specified
properties.

The pass (`CustomDatatypesLowerer`, a `StmtExprMutator`) walks an IR
tree bottom-up.  For each node kind that can carry a custom type code
it decides, on the pre-rewrite node, whether lowering is required
(`GetTypeRegistered` on the relevant type code(s)), rewrites the
children, and then either rebuilds the node, rewrites its type metadata
directly (`Allocate`, `Load`), or invokes an externally registered
lowering function found by a per-target lookup (`Cast`, `FloatImm`, the
twelve binary/comparison ops).  A missing lowering function is a fatal
`CHECK` failure; we model fatality as `Except.error` carrying the
diagnostic message built exactly as the C++ stream expression builds it.

The global registry (`datatype::Registry` and the `Get*LowerFunc`
lookups, defined outside this file's source) becomes an explicit
read-only `Registry` value: a predicate saying which type codes are
registered custom codes, plus the three lookup tables the pass
consults.  Lowering functions are opaque `Expr → Expr` values, as in
the source, where they are opaque `PackedFunc`s.
-/

/-- A TVM type descriptor: numeric type code, bit width, lane count
(`DataType` in the source; `code` is a `u8` in C++, modelled as `Nat`). -/
structure DataType where
  code : Nat
  bits : Nat
  lanes : Nat
  deriving DecidableEq, Repr

/-- The DLPack code of native signed integers (`kDLInt`). -/
def kDLInt : Nat := 0

/-- The DLPack code of native unsigned integers (`kDLUInt`).
`DataType::UInt` produces this code. -/
def kDLUInt : Nat := 1

/-- The DLPack code of native floats (`kDLFloat`). -/
def kDLFloat : Nat := 2

/-- The constructor `DataType::UInt(bits, lanes)`; the C++ default for `lanes` is 1, so
the call `DataType::UInt(b)` is modelled as `DataType.UInt b 1`. -/
def DataType.UInt (bits lanes : Nat) : DataType :=
  ⟨kDLUInt, bits, lanes⟩

/-- The twelve binary / comparison operation kinds the pass handles
(`DEFINE_MUTATE__(Add)` … `DEFINE_MUTATE__(GE)`). -/
inductive BinOpKind where
  | add | sub | mul | div | mod | min | max
  | eq | ne | lt | le | gt | ge
  deriving DecidableEq, Repr

/-- The C++ class name of each operation, as produced by the `#OP`
stringification inside `DEFINE_MUTATE__` (used in diagnostics and as
the registry lookup key suffix `Get<OP>LowerFunc`). -/
def opName : BinOpKind → String
  | .add => "Add" | .sub => "Sub" | .mul => "Mul" | .div => "Div"
  | .mod => "Mod" | .min => "Min" | .max => "Max"
  | .eq => "EQ" | .ne => "NE" | .lt => "LT" | .le => "LE"
  | .gt => "GT" | .ge => "GE"

/-- IR expressions, the node kinds relevant to this pass.
`var` models `Variable` (buffer handles and scalar variables), `intImm`
models `IntImm`; neither has a visitor in the pass.  `floatImm`'s
literal payload is opaque to the pass and carried as a `Nat` token.
`load`'s buffer variable is the variable's name handle. -/
inductive Expr where
  | var (name : String) (dtype : DataType)
  | intImm (dtype : DataType) (value : Int)
  | floatImm (dtype : DataType) (value : Nat)
  | cast (dtype : DataType) (value : Expr)
  | load (dtype : DataType) (bufferVar : String) (index : Expr) (predicate : Expr)
  | binop (kind : BinOpKind) (dtype : DataType) (lhs rhs : Expr)
  deriving DecidableEq, Repr

/-- The type descriptor owned by an expression node (`op->dtype` /
`e.dtype()` in the source; every TVM expression carries one). -/
def Expr.dtype : Expr → DataType
  | .var _ d => d
  | .intImm d _ => d
  | .floatImm d _ => d
  | .cast d _ => d
  | .load d _ _ _ => d
  | .binop _ d _ _ => d

/-- IR statements, the node kinds relevant to this pass.  `allocate`
mirrors `Allocate` with all seven fields of `Allocate::make`
(`new_expr` may be undefined in TVM, hence `Option`); `store`,
`evaluate` and `seq` are representative statement kinds handled by the
default mutator only. -/
inductive Stmt where
  | allocate (bufferVar : String) (dtype : DataType) (extents : List Expr)
      (condition : Expr) (body : Stmt) (newExpr : Option Expr) (freeFunction : String)
  | store (bufferVar : String) (value : Expr) (index : Expr) (predicate : Expr)
  | evaluate (value : Expr)
  | seq (first rest : Stmt)
  deriving DecidableEq, Repr

/-- A registered lowering function: an opaque callable taking the
already-rewritten node and returning its replacement. -/
def LoweringFn : Type := Expr → Expr

/-- The read-only view of the datatype registry that the pass consults:
`GetTypeRegistered`, `GetCastLowerFunc`, `GetFloatImmLowerFunc`, and
the per-operation `Get<OP>LowerFunc` family, keyed as in the source. -/
structure Registry where
  registered : Nat → Bool
  castLower : String → Nat → Nat → Option LoweringFn
  floatImmLower : String → Nat → Option LoweringFn
  opLower : String → BinOpKind → Nat → Option LoweringFn

/-- The diagnostic message of the `CHECK(lower)` in
`VisitExpr_(const Cast*)`, built exactly as the C++ stream expression
builds it (`static_cast<unsigned>` renders the codes as unsigned
decimal integers, as `toString : Nat → String` does). -/
def castLowerMsg (target : String) (typeCode srcTypeCode : Nat) : String :=
  "Cast lowering function for target " ++ target ++ " destination type "
    ++ toString typeCode ++ " source type " ++ toString srcTypeCode ++ " not found"

/-- The diagnostic message of the `CHECK(lower)` in
`VisitExpr_(const FloatImm*)`. -/
def floatImmLowerMsg (target : String) (typeCode : Nat) : String :=
  "FloatImm lowering function for target " ++ target ++ " type "
    ++ toString typeCode ++ " not found"

/-- The diagnostic message of the `CHECK(lower)` in `DEFINE_MUTATE__`. -/
def opLowerMsg (kind : BinOpKind) (target : String) (typeCode : Nat) : String :=
  opName kind ++ " lowering function for target " ++ target ++ " type "
    ++ toString typeCode ++ " not found"

/-- The `CustomDatatypesLowerer::VisitExpr_` methods and the inherited
`StmtExprMutator` dispatch, on expressions.  A fatal `CHECK` failure is
`Except.error` with the `CHECK`'s message.

Each handled case mirrors the source: the lowering trigger is computed
from the *pre-rewrite* node's type code(s), the children are rewritten
by the default mutator (which rebuilds the node with its original
`dtype`), and only then is the trigger applied.  `var` and `intImm`
have no visitor and no children, so the default mutator returns them
unchanged. -/
def lowerExpr (reg : Registry) (target : String) : Expr → Except String Expr
  | .var n d => .ok (.var n d)
  | .intImm d v => .ok (.intImm d v)
  | .floatImm d v =>
      -- VisitExpr_(const FloatImm*): no recursion (no children).
      if reg.registered d.code then
        match reg.floatImmLower target d.code with
        | some f => .ok (f (.floatImm d v))
        | none => .error (floatImmLowerMsg target d.code)
      else .ok (.floatImm d v)
  | .cast d v =>
      -- VisitExpr_(const Cast*): type_code = op->dtype.code(),
      -- src_type_code = op->value.dtype().code(), both read before the
      -- children are rewritten.
      match lowerExpr reg target v with
      | .error s => .error s
      | .ok v' =>
        if reg.registered d.code || reg.registered v.dtype.code then
          match reg.castLower target d.code v.dtype.code with
          | some f => .ok (f (.cast d v'))
          | none => .error (castLowerMsg target d.code v.dtype.code)
        else .ok (.cast d v')
  | .load d buf i p =>
      -- VisitExpr_(const Load*): rebuild, then if the (preserved) dtype
      -- code is registered, Load::make(DataType::UInt(bits), ...) —
      -- note the defaulted lane count.
      match lowerExpr reg target i with
      | .error s => .error s
      | .ok i' =>
        match lowerExpr reg target p with
        | .error s => .error s
        | .ok p' =>
          if reg.registered d.code then
            .ok (.load (DataType.UInt d.bits 1) buf i' p')
          else .ok (.load d buf i' p')
  | .binop k d a b =>
      -- DEFINE_MUTATE__(OP): trigger on the node's own result type
      -- code only; operand codes are never consulted.
      match lowerExpr reg target a with
      | .error s => .error s
      | .ok a' =>
        match lowerExpr reg target b with
        | .error s => .error s
        | .ok b' =>
          if reg.registered d.code then
            match reg.opLower target k d.code with
            | some f => .ok (f (.binop k d a' b'))
            | none => .error (opLowerMsg k target d.code)
          else .ok (.binop k d a' b')

/-- Rewriting of an expression list (the `Array<Expr>` extents of an
`Allocate`), children first to last, propagating the first failure. -/
def lowerList (reg : Registry) (target : String) : List Expr → Except String (List Expr)
  | [] => .ok []
  | e :: es =>
    match lowerExpr reg target e with
    | .error s => .error s
    | .ok e' =>
      match lowerList reg target es with
      | .error s => .error s
      | .ok es' => .ok (e' :: es')

/-- Rewriting of an optional expression (the possibly-undefined
`new_expr` field of an `Allocate`). -/
def lowerOpt (reg : Registry) (target : String) : Option Expr → Except String (Option Expr)
  | none => .ok none
  | some e =>
    match lowerExpr reg target e with
    | .error s => .error s
    | .ok e' => .ok (some e')

/-- The `CustomDatatypesLowerer::VisitStmt_` method and the inherited mutator, on
statements.  Only `Allocate` has a dedicated visitor: when its (pre-
rewrite) element type code is registered, the rebuilt node's element
type is replaced by `DataType::UInt(bits, lanes)` — lane count
preserved — while every other field of `Allocate::make` is taken from
the rebuilt node.  `store`, `evaluate` and `seq` go through the default
mutator. -/
def lowerStmt (reg : Registry) (target : String) : Stmt → Except String Stmt
  | .allocate v d exts cond body newE freeF =>
      match lowerList reg target exts with
      | .error s => .error s
      | .ok exts' =>
        match lowerExpr reg target cond with
        | .error s => .error s
        | .ok cond' =>
          match lowerStmt reg target body with
          | .error s => .error s
          | .ok body' =>
            match lowerOpt reg target newE with
            | .error s => .error s
            | .ok newE' =>
              if reg.registered d.code then
                .ok (.allocate v (DataType.UInt d.bits d.lanes) exts' cond' body' newE' freeF)
              else .ok (.allocate v d exts' cond' body' newE' freeF)
  | .store v val i p =>
      match lowerExpr reg target val with
      | .error s => .error s
      | .ok val' =>
        match lowerExpr reg target i with
        | .error s => .error s
        | .ok i' =>
          match lowerExpr reg target p with
          | .error s => .error s
          | .ok p' => .ok (.store v val' i' p')
  | .evaluate e =>
      match lowerExpr reg target e with
      | .error s => .error s
      | .ok e' => .ok (.evaluate e')
  | .seq a b =>
      match lowerStmt reg target a with
      | .error s => .error s
      | .ok a' =>
        match lowerStmt reg target b with
        | .error s => .error s
        | .ok b' => .ok (.seq a' b')

/-- The function record the pass entry point receives and returns
(`LoweredFunc` / `LoweredFuncNode`; only the fields relevant here). -/
structure LoweredFunc where
  name : String
  args : List String
  body : Stmt
  deriving DecidableEq, Repr

/-- The pass entry point `LowerCustomDatatypes(f, target)`: copy the
node (`make_object<LoweredFuncNode>(*f.operator->())`), replace its
body by the rewritten body, return the copy. -/
def LowerCustomDatatypes (reg : Registry) (f : LoweredFunc) (target : String) :
    Except String LoweredFunc :=
  match lowerStmt reg target f.body with
  | .error s => .error s
  | .ok b => .ok ⟨f.name, f.args, b⟩

/-- An expression tree is free of residual custom types when, for
every node of a kind the pass handles (`Cast`, `FloatImm`, `Load`, the
twelve binary/comparison ops), the node's own type code is not a
registered custom code.  (`var` and `intImm` have no visitor; the
invariant in the spec enumerates exactly the handled kinds.) -/
def Expr.noCustom (reg : Registry) : Expr → Bool
  | .var _ _ => true
  | .intImm _ _ => true
  | .floatImm d _ => !reg.registered d.code
  | .cast d v => !reg.registered d.code && v.noCustom reg
  | .load d _ i p => !reg.registered d.code && i.noCustom reg && p.noCustom reg
  | .binop _ d a b => !reg.registered d.code && a.noCustom reg && b.noCustom reg

/-- Statement-level residual-custom-type freedom: `Allocate` element
types and all contained expressions are checked. -/
def Stmt.noCustom (reg : Registry) : Stmt → Bool
  | .allocate _ d exts cond body newE _ =>
      !reg.registered d.code
        && exts.all (fun e => e.noCustom reg)
        && cond.noCustom reg
        && body.noCustom reg
        && (match newE with | none => true | some e => e.noCustom reg)
  | .store _ val i p => val.noCustom reg && i.noCustom reg && p.noCustom reg
  | .evaluate e => e.noCustom reg
  | .seq a b => a.noCustom reg && b.noCustom reg

/-- Every type code appearing anywhere in the expression — including
on `var` and `intImm` leaves, which the pass never rewrites — is
non-registered.  This is the hypothesis of the native-only identity
property. -/
def Expr.codesNative (reg : Registry) : Expr → Bool
  | .var _ d => !reg.registered d.code
  | .intImm d _ => !reg.registered d.code
  | .floatImm d _ => !reg.registered d.code
  | .cast d v => !reg.registered d.code && v.codesNative reg
  | .load d _ i p => !reg.registered d.code && i.codesNative reg && p.codesNative reg
  | .binop _ d a b => !reg.registered d.code && a.codesNative reg && b.codesNative reg

/-- Statement-level version of `Expr.codesNative`. -/
def Stmt.codesNative (reg : Registry) : Stmt → Bool
  | .allocate _ d exts cond body newE _ =>
      !reg.registered d.code
        && exts.all (fun e => e.codesNative reg)
        && cond.codesNative reg
        && body.codesNative reg
        && (match newE with | none => true | some e => e.codesNative reg)
  | .store _ val i p => val.codesNative reg && i.codesNative reg && p.codesNative reg
  | .evaluate e => e.codesNative reg
  | .seq a b => a.codesNative reg && b.codesNative reg

/-- A registry's lowering functions are clean when every function it
returns produces a replacement free of residual custom types — the
spec's contract that "responsibility for producing a correctly
native-typed result belongs to the lowering function". -/
def Registry.lowersClean (reg : Registry) : Prop :=
  (∀ t dst src f, reg.castLower t dst src = some f → ∀ e, Expr.noCustom reg (f e) = true)
    ∧ (∀ t c f, reg.floatImmLower t c = some f → ∀ e, Expr.noCustom reg (f e) = true)
    ∧ (∀ t k c f, reg.opLower t k c = some f → ∀ e, Expr.noCustom reg (f e) = true)

/-- Sample registry for concrete instances: type code 200 is the only
registered custom code, every lookup succeeds, and every lowering
function returns a native-typed replacement (a float32 constant for
casts, native integer constants otherwise). -/
def regClean : Registry :=
  ⟨fun c => c == 200,
   fun _ _ _ => some (fun _ => Expr.floatImm ⟨kDLFloat, 32, 1⟩ 0),
   fun _ _ => some (fun _ => Expr.intImm ⟨kDLUInt, 32, 1⟩ 0),
   fun _ _ _ => some (fun _ => Expr.intImm ⟨kDLInt, 32, 1⟩ 0)⟩

/-- Sample registry: type code 200 is registered, but no lowering
function is registered under any lookup key. -/
def regMissing : Registry :=
  ⟨fun c => c == 200, fun _ _ _ => none, fun _ _ => none, fun _ _ _ => none⟩

/-- Sample registry: type code 200 is registered and every lookup
succeeds, but the binary-op lowering functions return a replacement
that itself carries the registered code 200 (a lowering function that
violates its informal native-result contract). -/
def regDirty : Registry :=
  ⟨fun c => c == 200,
   fun _ _ _ => some (fun e => e),
   fun _ _ => some (fun e => e),
   fun _ _ _ => some (fun _ => Expr.floatImm ⟨200, 32, 1⟩ 0)⟩

/-- Child results of the pass are free of residual custom types: if the
registry's lowering functions are clean and the native unsigned code is
not itself registered, every successfully lowered expression satisfies
`Expr.noCustom`. -/
theorem lowerExpr_noCustom (reg : Registry) (t : String)
    (hwf : reg.registered kDLUInt = false) (hclean : Registry.lowersClean reg) :
    ∀ e e', lowerExpr reg t e = Except.ok e' → Expr.noCustom reg e' = true := by
  intro e
  induction e with
  | var n d =>
      intro e' h
      simp only [lowerExpr] at h
      cases h
      rfl
  | intImm d v =>
      intro e' h
      simp only [lowerExpr] at h
      cases h
      rfl
  | floatImm d v =>
      intro e' h
      simp only [lowerExpr] at h
      split at h
      · split at h
        · rename_i f hf
          cases h
          exact hclean.2.1 t d.code f hf _
        · exact absurd h (by simp)
      · rename_i hr
        cases h
        simp only [Expr.noCustom, Bool.not_eq_true']
        exact Bool.not_eq_true _ ▸ hr
  | cast d v ih =>
      intro e' h
      simp only [lowerExpr] at h
      split at h
      · exact absurd h (by simp)
      · rename_i v' hv
        split at h
        · split at h
          · rename_i f hf
            cases h
            exact hclean.1 t d.code v.dtype.code f hf _
          · exact absurd h (by simp)
        · rename_i hr
          cases h
          simp only [Bool.or_eq_true, not_or, Bool.not_eq_true] at hr
          simp only [Expr.noCustom, Bool.and_eq_true, Bool.not_eq_true']
          exact ⟨hr.1, ih v' hv⟩
  | load d buf i p ihi ihp =>
      intro e' h
      simp only [lowerExpr] at h
      split at h
      · exact absurd h (by simp)
      · rename_i i' hi
        split at h
        · exact absurd h (by simp)
        · rename_i p' hp
          split at h
          · cases h
            simp only [Expr.noCustom, Bool.and_eq_true, Bool.not_eq_true', DataType.UInt]
            exact ⟨⟨hwf, ihi i' hi⟩, ihp p' hp⟩
          · rename_i hr
            cases h
            simp only [Bool.not_eq_true] at hr
            simp only [Expr.noCustom, Bool.and_eq_true, Bool.not_eq_true']
            exact ⟨⟨hr, ihi i' hi⟩, ihp p' hp⟩
  | binop k d a b iha ihb =>
      intro e' h
      simp only [lowerExpr] at h
      split at h
      · exact absurd h (by simp)
      · rename_i a' ha
        split at h
        · exact absurd h (by simp)
        · rename_i b' hb
          split at h
          · split at h
            · rename_i f hf
              cases h
              exact hclean.2.2 t k d.code f hf _
            · exact absurd h (by simp)
          · rename_i hr
            cases h
            simp only [Bool.not_eq_true] at hr
            simp only [Expr.noCustom, Bool.and_eq_true, Bool.not_eq_true']
            exact ⟨⟨hr, iha a' ha⟩, ihb b' hb⟩

/-- List version of `lowerExpr_noCustom`, for `Allocate` extents. -/
theorem lowerList_noCustom (reg : Registry) (t : String)
    (hwf : reg.registered kDLUInt = false) (hclean : Registry.lowersClean reg) :
    ∀ es es', lowerList reg t es = Except.ok es' →
      es'.all (fun e => Expr.noCustom reg e) = true := by
  intro es
  induction es with
  | nil =>
      intro es' h
      simp only [lowerList] at h
      cases h
      rfl
  | cons e es ih =>
      intro es' h
      simp only [lowerList] at h
      split at h
      · exact absurd h (by simp)
      · rename_i e' he
        split at h
        · exact absurd h (by simp)
        · rename_i tl htl
          cases h
          simp only [List.all_cons, Bool.and_eq_true]
          exact ⟨lowerExpr_noCustom reg t hwf hclean e e' he, ih tl htl⟩

/-- Option version of `lowerExpr_noCustom`, for `new_expr`. -/
theorem lowerOpt_noCustom (reg : Registry) (t : String)
    (hwf : reg.registered kDLUInt = false) (hclean : Registry.lowersClean reg) :
    ∀ oe oe', lowerOpt reg t oe = Except.ok oe' →
      (match oe' with | none => true | some e => Expr.noCustom reg e) = true := by
  intro oe
  cases oe with
  | none =>
      intro oe' h
      simp only [lowerOpt] at h
      cases h
      rfl
  | some e =>
      intro oe' h
      simp only [lowerOpt] at h
      split at h
      · exact absurd h (by simp)
      · rename_i e' he
        cases h
        exact lowerExpr_noCustom reg t hwf hclean e e' he

/-- Statement version of `lowerExpr_noCustom`. -/
theorem lowerStmt_noCustom (reg : Registry) (t : String)
    (hwf : reg.registered kDLUInt = false) (hclean : Registry.lowersClean reg) :
    ∀ s s', lowerStmt reg t s = Except.ok s' → Stmt.noCustom reg s' = true := by
  intro s
  induction s with
  | allocate v d exts cond body newE freeF ihbody =>
      intro s' h
      simp only [lowerStmt] at h
      split at h
      · exact absurd h (by simp)
      · rename_i exts' hexts
        split at h
        · exact absurd h (by simp)
        · rename_i cond' hcond
          split at h
          · exact absurd h (by simp)
          · rename_i body' hbody
            split at h
            · exact absurd h (by simp)
            · rename_i newE' hnew
              split at h
              · cases h
                simp only [Stmt.noCustom, Bool.and_eq_true, Bool.not_eq_true', DataType.UInt]
                exact ⟨⟨⟨⟨hwf, lowerList_noCustom reg t hwf hclean exts exts' hexts⟩,
                  lowerExpr_noCustom reg t hwf hclean cond cond' hcond⟩,
                  ihbody body' hbody⟩,
                  lowerOpt_noCustom reg t hwf hclean newE newE' hnew⟩
              · rename_i hr
                cases h
                simp only [Bool.not_eq_true] at hr
                simp only [Stmt.noCustom, Bool.and_eq_true, Bool.not_eq_true']
                exact ⟨⟨⟨⟨hr, lowerList_noCustom reg t hwf hclean exts exts' hexts⟩,
                  lowerExpr_noCustom reg t hwf hclean cond cond' hcond⟩,
                  ihbody body' hbody⟩,
                  lowerOpt_noCustom reg t hwf hclean newE newE' hnew⟩
  | store v val i p =>
      intro s' h
      simp only [lowerStmt] at h
      split at h
      · exact absurd h (by simp)
      · rename_i val' hval
        split at h
        · exact absurd h (by simp)
        · rename_i i' hi
          split at h
          · exact absurd h (by simp)
          · rename_i p' hp
            cases h
            simp only [Stmt.noCustom, Bool.and_eq_true]
            exact ⟨⟨lowerExpr_noCustom reg t hwf hclean val val' hval,
              lowerExpr_noCustom reg t hwf hclean i i' hi⟩,
              lowerExpr_noCustom reg t hwf hclean p p' hp⟩
  | evaluate e =>
      intro s' h
      simp only [lowerStmt] at h
      split at h
      · exact absurd h (by simp)
      · rename_i e' he
        cases h
        exact lowerExpr_noCustom reg t hwf hclean e e' he
  | seq a b iha ihb =>
      intro s' h
      simp only [lowerStmt] at h
      split at h
      · exact absurd h (by simp)
      · rename_i a' ha
        split at h
        · exact absurd h (by simp)
        · rename_i b' hb
          cases h
          simp only [Stmt.noCustom, Bool.and_eq_true]
          exact ⟨iha a' ha, ihb b' hb⟩

/-- An expression whose codes are all native has a non-registered own
type code. -/
theorem codesNative_dtype (reg : Registry) :
    ∀ e : Expr, Expr.codesNative reg e = true → reg.registered e.dtype.code = false := by
  intro e h
  cases e with
  | var n d =>
      simp only [Expr.codesNative, Bool.not_eq_true'] at h
      exact h
  | intImm d v =>
      simp only [Expr.codesNative, Bool.not_eq_true'] at h
      exact h
  | floatImm d v =>
      simp only [Expr.codesNative, Bool.not_eq_true'] at h
      exact h
  | cast d v =>
      simp only [Expr.codesNative, Bool.and_eq_true, Bool.not_eq_true'] at h
      exact h.1
  | load d buf i p =>
      simp only [Expr.codesNative, Bool.and_eq_true, Bool.not_eq_true'] at h
      exact h.1.1
  | binop k d a b =>
      simp only [Expr.codesNative, Bool.and_eq_true, Bool.not_eq_true'] at h
      exact h.1.1

/-- On an expression containing no registered custom code anywhere, the
pass is the identity. -/
theorem lowerExpr_id (reg : Registry) (t : String) :
    ∀ e : Expr, Expr.codesNative reg e = true → lowerExpr reg t e = Except.ok e := by
  intro e
  induction e with
  | var n d =>
      intro h
      rfl
  | intImm d v =>
      intro h
      rfl
  | floatImm d v =>
      intro h
      simp only [Expr.codesNative, Bool.not_eq_true'] at h
      simp [lowerExpr, h]
  | cast d v ih =>
      intro h
      simp only [Expr.codesNative, Bool.and_eq_true, Bool.not_eq_true'] at h
      simp [lowerExpr, ih h.2, h.1, codesNative_dtype reg v h.2]
  | load d buf i p ihi ihp =>
      intro h
      simp only [Expr.codesNative, Bool.and_eq_true, Bool.not_eq_true'] at h
      simp [lowerExpr, ihi h.1.2, ihp h.2, h.1.1]
  | binop k d a b iha ihb =>
      intro h
      simp only [Expr.codesNative, Bool.and_eq_true, Bool.not_eq_true'] at h
      simp [lowerExpr, iha h.1.2, ihb h.2, h.1.1]

/-- List version of `lowerExpr_id`. -/
theorem lowerList_id (reg : Registry) (t : String) :
    ∀ es : List Expr, es.all (fun e => Expr.codesNative reg e) = true →
      lowerList reg t es = Except.ok es := by
  intro es
  induction es with
  | nil =>
      intro h
      rfl
  | cons e es ih =>
      intro h
      simp only [List.all_cons, Bool.and_eq_true] at h
      simp [lowerList, lowerExpr_id reg t e h.1, ih h.2]

/-- Option version of `lowerExpr_id`. -/
theorem lowerOpt_id (reg : Registry) (t : String) :
    ∀ oe : Option Expr,
      (match oe with | none => true | some e => Expr.codesNative reg e) = true →
      lowerOpt reg t oe = Except.ok oe := by
  intro oe h
  cases oe with
  | none => rfl
  | some e =>
      simp only [lowerOpt, lowerExpr_id reg t e h]

/-- On a statement containing no registered custom code anywhere, the
pass is the identity. -/
theorem lowerStmt_id (reg : Registry) (t : String) :
    ∀ s : Stmt, Stmt.codesNative reg s = true → lowerStmt reg t s = Except.ok s := by
  intro s
  induction s with
  | allocate v d exts cond body newE freeF ihbody =>
      intro h
      simp only [Stmt.codesNative, Bool.and_eq_true, Bool.not_eq_true'] at h
      simp [lowerStmt, lowerList_id reg t exts h.1.1.1.2,
        lowerExpr_id reg t cond h.1.1.2, ihbody h.1.2,
        lowerOpt_id reg t newE h.2, h.1.1.1.1]
  | store v val i p =>
      intro h
      simp only [Stmt.codesNative, Bool.and_eq_true] at h
      simp [lowerStmt, lowerExpr_id reg t val h.1.1, lowerExpr_id reg t i h.1.2,
        lowerExpr_id reg t p h.2]
  | evaluate e =>
      intro h
      simp only [Stmt.codesNative] at h
      simp [lowerStmt, lowerExpr_id reg t e h]
  | seq a b iha ihb =>
      intro h
      simp only [Stmt.codesNative, Bool.and_eq_true] at h
      simp [lowerStmt, iha h.1, ihb h.2]

/-- The registry `regClean` has lowering functions that all return native-typed
replacements. -/
theorem regClean_lowersClean : Registry.lowersClean regClean := by
  refine ⟨?_, ?_, ?_⟩
  · intro t dst src f hf e
    cases hf
    rfl
  · intro t c f hf e
    cases hf
    rfl
  · intro t k c f hf e
    cases hf
    rfl

/-- Claim C1 (amended): for every input tree and target for which every
required lowering function is registered, *and assuming each lowering
function the registry returns produces a replacement free of registered
custom codes and the native unsigned-integer code is not itself
registered*, the tree returned by the pass contains no node (of the
kinds the pass handles: `Cast`, `FloatImm`, `Load`, `Allocate`, the
twelve binary/comparison ops) whose own type descriptor carries a
registered custom type code. -/
theorem lower_no_residual_custom (reg : Registry) (t : String) (f g : LoweredFunc)
    (hwf : reg.registered kDLUInt = false) (hclean : Registry.lowersClean reg)
    (h : LowerCustomDatatypes reg f t = Except.ok g) :
    Stmt.noCustom reg g.body = true := by
  unfold LowerCustomDatatypes at h
  split at h
  · exact absurd h (by simp)
  · rename_i b hb
    cases h
    exact lowerStmt_noCustom reg t hwf hclean f.body b hb

/-- Witness for C1's amended theorem at a concrete clean registry and a
function whose body is a custom-coded `Add`. -/
theorem lower_no_residual_custom_witness :
    Stmt.noCustom regClean (Stmt.evaluate (Expr.intImm ⟨kDLInt, 32, 1⟩ 0)) = true :=
  lower_no_residual_custom regClean "llvm"
    ⟨"main", ["a"], Stmt.evaluate (Expr.binop .add ⟨200, 32, 1⟩
      (Expr.intImm ⟨kDLInt, 32, 1⟩ 1) (Expr.intImm ⟨kDLInt, 32, 1⟩ 2))⟩
    ⟨"main", ["a"], Stmt.evaluate (Expr.intImm ⟨kDLInt, 32, 1⟩ 0)⟩
    rfl regClean_lowersClean rfl

/-- Counterexample to C1 as stated: with every lookup registered but an
`Add` lowering function that returns a custom-coded replacement, the
pass succeeds yet its output still carries the registered code 200. -/
theorem lower_no_residual_custom_cex :
    LowerCustomDatatypes regDirty
        ⟨"main", ["a"], Stmt.evaluate (Expr.binop .add ⟨200, 32, 1⟩
          (Expr.intImm ⟨kDLInt, 32, 1⟩ 1) (Expr.intImm ⟨kDLInt, 32, 1⟩ 2))⟩ "llvm"
      = Except.ok ⟨"main", ["a"], Stmt.evaluate (Expr.floatImm ⟨200, 32, 1⟩ 0)⟩
    ∧ Stmt.noCustom regDirty (Stmt.evaluate (Expr.floatImm ⟨200, 32, 1⟩ 0)) = false :=
  ⟨rfl, rfl⟩

/-- Claim C2: a `Cast` with a custom destination or source code, a
`FloatImm` with a custom code, or a binary/comparison op with a custom
result code, whose registry lookup comes back empty, makes the pass
abort with the `CHECK` diagnostic — an `Except.error` and no output —
and the diagnostic message names the target, the operation kind, and
the involved type code(s) rendered as unsigned decimal integers
(the last three conjuncts decompose each message). -/
theorem missing_lowering_fatal (reg : Registry) (t : String) :
    (∀ (d : DataType) (v v' : Expr),
        (reg.registered d.code || reg.registered v.dtype.code) = true →
        reg.castLower t d.code v.dtype.code = none →
        lowerExpr reg t v = Except.ok v' →
        lowerExpr reg t (Expr.cast d v) = Except.error (castLowerMsg t d.code v.dtype.code))
    ∧ (∀ (d : DataType) (x : Nat),
        reg.registered d.code = true →
        reg.floatImmLower t d.code = none →
        lowerExpr reg t (Expr.floatImm d x) = Except.error (floatImmLowerMsg t d.code))
    ∧ (∀ (k : BinOpKind) (d : DataType) (a b a' b' : Expr),
        reg.registered d.code = true →
        reg.opLower t k d.code = none →
        lowerExpr reg t a = Except.ok a' →
        lowerExpr reg t b = Except.ok b' →
        lowerExpr reg t (Expr.binop k d a b) = Except.error (opLowerMsg k t d.code))
    ∧ (∀ dc sc : Nat, ∃ p q r u : String,
        castLowerMsg t dc sc = p ++ t ++ q ++ toString dc ++ r ++ toString sc ++ u)
    ∧ (∀ c : Nat, ∃ p q u : String,
        floatImmLowerMsg t c = p ++ t ++ q ++ toString c ++ u)
    ∧ (∀ (k : BinOpKind) (c : Nat), ∃ p q u : String,
        opLowerMsg k t c = opName k ++ p ++ t ++ q ++ toString c ++ u) := by
  refine ⟨?_, ?_, ?_, ?_, ?_, ?_⟩
  · intro d v v' h1 h2 h3
    simp only [lowerExpr, h3, h1, h2]
    simp
  · intro d x h1 h2
    simp only [lowerExpr, h1, h2]
    simp
  · intro k d a b a' b' h1 h2 h3 h4
    simp only [lowerExpr, h3, h4, h1, h2]
    simp
  · intro dc sc
    exact ⟨"Cast lowering function for target ", " destination type ",
      " source type ", " not found", rfl⟩
  · intro c
    exact ⟨"FloatImm lowering function for target ", " type ", " not found", rfl⟩
  · intro k c
    exact ⟨" lowering function for target ", " type ", " not found", rfl⟩

/-- Witness for C2 at the concrete registry with code 200 registered
and no cast lowering function. -/
theorem missing_lowering_fatal_witness :
    lowerExpr regMissing "llvm"
        (Expr.cast ⟨200, 32, 1⟩ (Expr.floatImm ⟨kDLFloat, 32, 1⟩ 7))
      = Except.error (castLowerMsg "llvm" 200 kDLFloat) :=
  (missing_lowering_fatal regMissing "llvm").1 ⟨200, 32, 1⟩
    (Expr.floatImm ⟨kDLFloat, 32, 1⟩ 7) (Expr.floatImm ⟨kDLFloat, 32, 1⟩ 7)
    rfl rfl rfl

/-- Claim C3: a `Cast` triggers lowering exactly when the destination
code or the source operand's (pre-rewrite) code is registered; when not
triggered it is rebuilt unchanged, and when triggered the result is
fully determined by the dedicated cast lookup keyed by both codes
(`GetCastLowerFunc`), never the generic per-operation lookup. -/
theorem cast_trigger_iff (reg : Registry) (t : String) (d : DataType) (v v' : Expr)
    (hv : lowerExpr reg t v = Except.ok v') :
    ((reg.registered d.code || reg.registered v.dtype.code) = false →
        lowerExpr reg t (Expr.cast d v) = Except.ok (Expr.cast d v'))
    ∧ ((reg.registered d.code || reg.registered v.dtype.code) = true →
        lowerExpr reg t (Expr.cast d v)
          = match reg.castLower t d.code v.dtype.code with
            | some f => Except.ok (f (Expr.cast d v'))
            | none => Except.error (castLowerMsg t d.code v.dtype.code)) := by
  constructor
  · intro h
    simp only [lowerExpr, hv, h]
    simp
  · intro h
    simp only [lowerExpr, hv, h]
    simp

/-- Witness for C3: a cast from native float32 into the registered code
200 is lowered through the cast lookup of `regClean`. -/
theorem cast_trigger_iff_witness :
    lowerExpr regClean "llvm" (Expr.cast ⟨200, 32, 1⟩ (Expr.floatImm ⟨kDLFloat, 32, 1⟩ 5))
      = Except.ok (Expr.floatImm ⟨kDLFloat, 32, 1⟩ 0) :=
  (cast_trigger_iff regClean "llvm" ⟨200, 32, 1⟩
    (Expr.floatImm ⟨kDLFloat, 32, 1⟩ 5) (Expr.floatImm ⟨kDLFloat, 32, 1⟩ 5) rfl).2 rfl

/-- Claim C4: lowering an `Allocate` of a custom type with bit width
`b` and lane count `n` yields element type `DataType::UInt(b, n)`
(lanes preserved), while lowering a `Load` of such a type yields value
type `DataType::UInt(b)` = `DataType.UInt b 1` (lanes dropped to the
scalar default).  The statement holds for *every* registry, whatever
its three lookup tables contain — in particular for a registry with no
lowering function registered at all — which is the formal content of
"neither rewrite invokes a registered lowering function". -/
theorem alloc_load_lane_asymmetry (reg : Registry) (t : String) :
    (∀ (v : String) (c b n : Nat) (exts : List Expr) (cond : Expr) (body : Stmt)
        (newE : Option Expr) (freeF : String) (exts' : List Expr) (cond' : Expr)
        (body' : Stmt) (newE' : Option Expr),
        reg.registered c = true →
        lowerList reg t exts = Except.ok exts' →
        lowerExpr reg t cond = Except.ok cond' →
        lowerStmt reg t body = Except.ok body' →
        lowerOpt reg t newE = Except.ok newE' →
        lowerStmt reg t (Stmt.allocate v ⟨c, b, n⟩ exts cond body newE freeF)
          = Except.ok (Stmt.allocate v (DataType.UInt b n) exts' cond' body' newE' freeF))
    ∧ (∀ (c b n : Nat) (buf : String) (i p i' p' : Expr),
        reg.registered c = true →
        lowerExpr reg t i = Except.ok i' →
        lowerExpr reg t p = Except.ok p' →
        lowerExpr reg t (Expr.load ⟨c, b, n⟩ buf i p)
          = Except.ok (Expr.load (DataType.UInt b 1) buf i' p')) := by
  constructor
  · intro v c b n exts cond body newE freeF exts' cond' body' newE' hc h1 h2 h3 h4
    simp only [lowerStmt, h1, h2, h3, h4, hc]
    simp
  · intro c b n buf i p i' p' hc h1 h2
    simp only [lowerExpr, h1, h2, hc]
    simp

/-- Witness for C4, at the spec's 16-bit 4-lane example and a registry
with no lowering function registered under any key. -/
theorem alloc_load_lane_asymmetry_witness :
    lowerStmt regMissing "llvm"
        (Stmt.allocate "A" ⟨200, 16, 4⟩ [] (Expr.intImm ⟨kDLInt, 32, 1⟩ 1)
          (Stmt.evaluate (Expr.intImm ⟨kDLInt, 32, 1⟩ 0)) none "")
      = Except.ok (Stmt.allocate "A" (DataType.UInt 16 4) [] (Expr.intImm ⟨kDLInt, 32, 1⟩ 1)
          (Stmt.evaluate (Expr.intImm ⟨kDLInt, 32, 1⟩ 0)) none "")
    ∧ lowerExpr regMissing "llvm"
        (Expr.load ⟨200, 16, 4⟩ "A" (Expr.intImm ⟨kDLInt, 32, 1⟩ 0)
          (Expr.intImm ⟨kDLInt, 1, 1⟩ 1))
      = Except.ok (Expr.load (DataType.UInt 16 1) "A" (Expr.intImm ⟨kDLInt, 32, 1⟩ 0)
          (Expr.intImm ⟨kDLInt, 1, 1⟩ 1)) :=
  ⟨(alloc_load_lane_asymmetry regMissing "llvm").1 "A" 200 16 4 []
      (Expr.intImm ⟨kDLInt, 32, 1⟩ 1) (Stmt.evaluate (Expr.intImm ⟨kDLInt, 32, 1⟩ 0))
      none "" [] (Expr.intImm ⟨kDLInt, 32, 1⟩ 1)
      (Stmt.evaluate (Expr.intImm ⟨kDLInt, 32, 1⟩ 0)) none rfl rfl rfl rfl rfl,
   (alloc_load_lane_asymmetry regMissing "llvm").2 200 16 4 "A"
      (Expr.intImm ⟨kDLInt, 32, 1⟩ 0) (Expr.intImm ⟨kDLInt, 1, 1⟩ 1)
      (Expr.intImm ⟨kDLInt, 32, 1⟩ 0) (Expr.intImm ⟨kDLInt, 1, 1⟩ 1) rfl rfl rfl⟩

/-- Claim C5: rewriting an `Allocate` with a registered element type
code replaces only the element type; the buffer variable and the free
function are kept verbatim and the extents, condition, body and
`new_expr` are exactly the results of rewriting the children. -/
theorem allocate_frame (reg : Registry) (t : String) (v : String) (d : DataType)
    (exts : List Expr) (cond : Expr) (body : Stmt) (newE : Option Expr) (freeF : String)
    (exts' : List Expr) (cond' : Expr) (body' : Stmt) (newE' : Option Expr)
    (hc : reg.registered d.code = true)
    (h1 : lowerList reg t exts = Except.ok exts')
    (h2 : lowerExpr reg t cond = Except.ok cond')
    (h3 : lowerStmt reg t body = Except.ok body')
    (h4 : lowerOpt reg t newE = Except.ok newE') :
    lowerStmt reg t (Stmt.allocate v d exts cond body newE freeF)
      = Except.ok (Stmt.allocate v (DataType.UInt d.bits d.lanes)
          exts' cond' body' newE' freeF) := by
  simp only [lowerStmt, h1, h2, h3, h4, hc]
  simp

/-- Witness for C5 with non-trivial extents, condition, nested custom
body, `new_expr` and free function. -/
theorem allocate_frame_witness :
    lowerStmt regClean "llvm"
        (Stmt.allocate "A" ⟨200, 16, 4⟩ [Expr.intImm ⟨kDLInt, 32, 1⟩ 64]
          (Expr.intImm ⟨kDLInt, 1, 1⟩ 1)
          (Stmt.evaluate (Expr.floatImm ⟨200, 32, 1⟩ 3))
          (some (Expr.intImm ⟨kDLInt, 64, 1⟩ 0)) "my_free")
      = Except.ok (Stmt.allocate "A" (DataType.UInt 16 4) [Expr.intImm ⟨kDLInt, 32, 1⟩ 64]
          (Expr.intImm ⟨kDLInt, 1, 1⟩ 1)
          (Stmt.evaluate (Expr.intImm ⟨kDLUInt, 32, 1⟩ 0))
          (some (Expr.intImm ⟨kDLInt, 64, 1⟩ 0)) "my_free") :=
  allocate_frame regClean "llvm" "A" ⟨200, 16, 4⟩ [Expr.intImm ⟨kDLInt, 32, 1⟩ 64]
    (Expr.intImm ⟨kDLInt, 1, 1⟩ 1) (Stmt.evaluate (Expr.floatImm ⟨200, 32, 1⟩ 3))
    (some (Expr.intImm ⟨kDLInt, 64, 1⟩ 0)) "my_free" [Expr.intImm ⟨kDLInt, 32, 1⟩ 64]
    (Expr.intImm ⟨kDLInt, 1, 1⟩ 1) (Stmt.evaluate (Expr.intImm ⟨kDLUInt, 32, 1⟩ 0))
    (some (Expr.intImm ⟨kDLInt, 64, 1⟩ 0)) rfl rfl rfl rfl rfl

/-- Claim C6: a binary/comparison node is lowered exactly when its own
result type code is registered.  The first conjunct holds for arbitrary
operands `a`, `b` — in particular for operands whose own type codes are
registered custom codes — so operand codes alone never trigger lowering
of the node; the second conjunct shows the triggered case is fully
determined by the per-operation lookup on the node's own code. -/
theorem binop_trigger_iff (reg : Registry) (t : String) (k : BinOpKind) (d : DataType)
    (a b a' b' : Expr)
    (ha : lowerExpr reg t a = Except.ok a') (hb : lowerExpr reg t b = Except.ok b') :
    (reg.registered d.code = false →
        lowerExpr reg t (Expr.binop k d a b) = Except.ok (Expr.binop k d a' b'))
    ∧ (reg.registered d.code = true →
        lowerExpr reg t (Expr.binop k d a b)
          = match reg.opLower t k d.code with
            | some f => Except.ok (f (Expr.binop k d a' b'))
            | none => Except.error (opLowerMsg k t d.code)) := by
  constructor
  · intro h
    simp only [lowerExpr, ha, hb, h]
    simp
  · intro h
    simp only [lowerExpr, ha, hb, h]
    simp

/-- Witness for C6: a `Mul` with native result code but a custom-coded
variable operand is rebuilt unchanged, even though the registry (here)
has no `Mul` lowering function at all — the operand's code does not
trigger lowering of the node. -/
theorem binop_trigger_iff_witness :
    lowerExpr regMissing "llvm"
        (Expr.binop .mul ⟨kDLFloat, 32, 1⟩ (Expr.var "x" ⟨200, 32, 1⟩)
          (Expr.var "y" ⟨kDLFloat, 32, 1⟩))
      = Except.ok (Expr.binop .mul ⟨kDLFloat, 32, 1⟩ (Expr.var "x" ⟨200, 32, 1⟩)
          (Expr.var "y" ⟨kDLFloat, 32, 1⟩)) :=
  (binop_trigger_iff regMissing "llvm" .mul ⟨kDLFloat, 32, 1⟩
    (Expr.var "x" ⟨200, 32, 1⟩) (Expr.var "y" ⟨kDLFloat, 32, 1⟩)
    (Expr.var "x" ⟨200, 32, 1⟩) (Expr.var "y" ⟨kDLFloat, 32, 1⟩) rfl rfl).1 rfl

/-- Claim C7: the traversal is post-order.  The trigger is decided on
the pre-rewrite node's descriptor(s) (the hypotheses mention only the
pre-rewrite codes), a lowering function is invoked on the node rebuilt
from the already-rewritten children, and — when the registry is
well-formed and its lowering functions return native-typed results —
those children are free of residual custom codes. -/
theorem postorder_clean_children (reg : Registry) (t : String)
    (hwf : reg.registered kDLUInt = false) (hclean : Registry.lowersClean reg) :
    (∀ (d : DataType) (v v' : Expr) (f : LoweringFn),
        lowerExpr reg t v = Except.ok v' →
        (reg.registered d.code || reg.registered v.dtype.code) = true →
        reg.castLower t d.code v.dtype.code = some f →
        lowerExpr reg t (Expr.cast d v) = Except.ok (f (Expr.cast d v'))
          ∧ Expr.noCustom reg v' = true)
    ∧ (∀ (k : BinOpKind) (d : DataType) (a b a' b' : Expr) (f : LoweringFn),
        lowerExpr reg t a = Except.ok a' →
        lowerExpr reg t b = Except.ok b' →
        reg.registered d.code = true →
        reg.opLower t k d.code = some f →
        lowerExpr reg t (Expr.binop k d a b) = Except.ok (f (Expr.binop k d a' b'))
          ∧ Expr.noCustom reg a' = true ∧ Expr.noCustom reg b' = true) := by
  constructor
  · intro d v v' f hv htrig hf
    refine ⟨?_, lowerExpr_noCustom reg t hwf hclean v v' hv⟩
    simp only [lowerExpr, hv, htrig, hf]
    simp
  · intro k d a b a' b' f ha hb htrig hf
    refine ⟨?_, lowerExpr_noCustom reg t hwf hclean a a' ha,
      lowerExpr_noCustom reg t hwf hclean b b' hb⟩
    simp only [lowerExpr, ha, hb, htrig, hf]
    simp

/-- Witness for C7 at the spec's scenario: a cast whose operand is a
custom-typed `Add`; the cast's lowering function receives the node with
the `Add` already replaced by a native constant. -/
theorem postorder_clean_children_witness :
    lowerExpr regClean "llvm"
        (Expr.cast ⟨kDLFloat, 32, 1⟩ (Expr.binop .add ⟨200, 32, 1⟩
          (Expr.intImm ⟨kDLInt, 32, 1⟩ 1) (Expr.intImm ⟨kDLInt, 32, 1⟩ 2)))
      = Except.ok (Expr.floatImm ⟨kDLFloat, 32, 1⟩ 0)
    ∧ Expr.noCustom regClean (Expr.intImm ⟨kDLInt, 32, 1⟩ 0) = true :=
  (postorder_clean_children regClean "llvm" rfl regClean_lowersClean).1
    ⟨kDLFloat, 32, 1⟩
    (Expr.binop .add ⟨200, 32, 1⟩ (Expr.intImm ⟨kDLInt, 32, 1⟩ 1)
      (Expr.intImm ⟨kDLInt, 32, 1⟩ 2))
    (Expr.intImm ⟨kDLInt, 32, 1⟩ 0)
    (fun _ => Expr.floatImm ⟨kDLFloat, 32, 1⟩ 0)
    rfl rfl rfl

/-- Claim C8: on an input containing no registered custom type code
anywhere — on any node kind, leaves included — the pass is the
identity: no trigger fires and every expression, statement, and the
whole function record come back equal to the input. -/
theorem native_only_identity (reg : Registry) (t : String) :
    (∀ e : Expr, Expr.codesNative reg e = true → lowerExpr reg t e = Except.ok e)
    ∧ (∀ s : Stmt, Stmt.codesNative reg s = true → lowerStmt reg t s = Except.ok s)
    ∧ (∀ f : LoweredFunc, Stmt.codesNative reg f.body = true →
        LowerCustomDatatypes reg f t = Except.ok f) := by
  refine ⟨lowerExpr_id reg t, lowerStmt_id reg t, ?_⟩
  intro f h
  simp only [LowerCustomDatatypes, lowerStmt_id reg t f.body h]

/-- Witness for C8 at a concrete native-only tree under a registry that
does have a registered custom code (200). -/
theorem native_only_identity_witness :
    LowerCustomDatatypes regClean
        ⟨"main", ["a"], Stmt.store "A"
          (Expr.cast ⟨kDLFloat, 32, 1⟩ (Expr.binop .add ⟨kDLInt, 32, 1⟩
            (Expr.var "x" ⟨kDLInt, 32, 1⟩) (Expr.intImm ⟨kDLInt, 32, 1⟩ 2)))
          (Expr.intImm ⟨kDLInt, 32, 1⟩ 0) (Expr.intImm ⟨kDLInt, 1, 1⟩ 1)⟩ "llvm"
      = Except.ok ⟨"main", ["a"], Stmt.store "A"
          (Expr.cast ⟨kDLFloat, 32, 1⟩ (Expr.binop .add ⟨kDLInt, 32, 1⟩
            (Expr.var "x" ⟨kDLInt, 32, 1⟩) (Expr.intImm ⟨kDLInt, 32, 1⟩ 2)))
          (Expr.intImm ⟨kDLInt, 32, 1⟩ 0) (Expr.intImm ⟨kDLInt, 1, 1⟩ 1)⟩ :=
  (native_only_identity regClean "llvm").2.2
    ⟨"main", ["a"], Stmt.store "A"
      (Expr.cast ⟨kDLFloat, 32, 1⟩ (Expr.binop .add ⟨kDLInt, 32, 1⟩
        (Expr.var "x" ⟨kDLInt, 32, 1⟩) (Expr.intImm ⟨kDLInt, 32, 1⟩ 2)))
      (Expr.intImm ⟨kDLInt, 32, 1⟩ 0) (Expr.intImm ⟨kDLInt, 1, 1⟩ 1)⟩ rfl

/-- Claim C9: `LowerCustomDatatypes(f, target)` builds a fresh record
(`make_object` copy) whose `body` is the rewritten body and whose every
other field equals the original's; the embedding is purely functional,
so the caller's record is never mutated. -/
theorem lower_new_record (reg : Registry) (f g : LoweredFunc) (t : String)
    (h : LowerCustomDatatypes reg f t = Except.ok g) :
    g.name = f.name ∧ g.args = f.args ∧ lowerStmt reg t f.body = Except.ok g.body := by
  unfold LowerCustomDatatypes at h
  split at h
  · exact absurd h (by simp)
  · rename_i b hb
    cases h
    exact ⟨rfl, rfl, hb⟩

/-- Witness for C9 at a concrete function whose body is lowered. -/
theorem lower_new_record_witness :
    ("main" : String) = "main" ∧ (["a", "b"] : List String) = ["a", "b"]
      ∧ lowerStmt regClean "llvm" (Stmt.evaluate (Expr.floatImm ⟨200, 32, 1⟩ 9))
          = Except.ok (Stmt.evaluate (Expr.intImm ⟨kDLUInt, 32, 1⟩ 0)) :=
  lower_new_record regClean
    ⟨"main", ["a", "b"], Stmt.evaluate (Expr.floatImm ⟨200, 32, 1⟩ 9)⟩
    ⟨"main", ["a", "b"], Stmt.evaluate (Expr.intImm ⟨kDLUInt, 32, 1⟩ 0)⟩ "llvm" rfl

/-- Claim C10: rewriting a `Load` with a registered type code keeps the
buffer variable verbatim and the index and predicate exactly as the
results of rewriting the children; only the loaded value's type is
replaced. -/
theorem load_frame (reg : Registry) (t : String) (d : DataType) (buf : String)
    (i p i' p' : Expr)
    (hc : reg.registered d.code = true)
    (hi : lowerExpr reg t i = Except.ok i')
    (hp : lowerExpr reg t p = Except.ok p') :
    lowerExpr reg t (Expr.load d buf i p)
      = Except.ok (Expr.load (DataType.UInt d.bits 1) buf i' p') := by
  simp only [lowerExpr, hi, hp, hc]
  simp

/-- Witness for C10 with a custom-typed index expression that is itself
rewritten before the `Load` is rebuilt. -/
theorem load_frame_witness :
    lowerExpr regClean "llvm"
        (Expr.load ⟨200, 16, 4⟩ "A" (Expr.floatImm ⟨200, 32, 1⟩ 5)
          (Expr.intImm ⟨kDLInt, 1, 1⟩ 1))
      = Except.ok (Expr.load (DataType.UInt 16 1) "A" (Expr.intImm ⟨kDLUInt, 32, 1⟩ 0)
          (Expr.intImm ⟨kDLInt, 1, 1⟩ 1)) :=
  load_frame regClean "llvm" ⟨200, 16, 4⟩ "A" (Expr.floatImm ⟨200, 32, 1⟩ 5)
    (Expr.intImm ⟨kDLInt, 1, 1⟩ 1) (Expr.intImm ⟨kDLUInt, 32, 1⟩ 0)
    (Expr.intImm ⟨kDLInt, 1, 1⟩ 1) rfl rfl rfl
